import Mathlib

/-!
Verification of the command-stream front end in
`src/video_core/command_processor.cpp` (namespace `Tegra`).

The embedding models:
* `GPU::WriteReg` as `writeReg` — a state transformer over `GPUState`
  producing a trace of engine calls, or a fatal error (the source's
  `ASSERT`/`UNIMPLEMENTED` macros, which the design document classifies as
  fatal protocol violations that abort processing of the stream);
* `GPU::ProcessCommandList` as `ProcessCommandList` / `processLoop` /
  `argLoop`, walking a byte-addressed word memory `mem : Nat → Nat`
  (the external `Memory::Read32` port) from a translated base address.

Machine integers are modelled as `Nat`: every arithmetic operation
performed by the source on `u32` values here (`method + i`,
`arg_count - i - 1`, `current_addr + 4`) stays far below `2^32` or is
guarded so that unsigned wraparound cannot occur, so `Nat` arithmetic
coincides with the source's `u32` arithmetic at every use site.
-/

namespace Tegra

/-- `enum class BufferMethods` from command_processor.cpp lines 25-31. -/
def BindObject : Nat := 0

/-- `BufferMethods::SetGraphMacroCode = 0x45`. -/
def SetGraphMacroCode : Nat := 0x45

/-- `BufferMethods::SetGraphMacroCodeArg = 0x46`. -/
def SetGraphMacroCodeArg : Nat := 0x46

/-- `BufferMethods::SetGraphMacroEntry = 0x47`. -/
def SetGraphMacroEntry : Nat := 0x47

/-- `BufferMethods::CountBufferMethods = 0x100`: lower bound of the
engine-register method range. -/
def CountBufferMethods : Nat := 0x100

/-- Modelled from the spec: the invalid-entry sentinel
`GPU::InvalidGraphMacroEntry` lives in video_core/gpu.h, which is not under
src/; the spec describes the Macro Upload State's empty/invalid entry as a
sentinel id, the all-ones 32-bit value. -/
def InvalidGraphMacroEntry : Nat := 0xFFFFFFFF

/-- Modelled from the spec: `EngineID::FERMI_TWOD_A` from video_core/gpu.h
(not under src/) — the hardware class id of the 2D blit engine. -/
def FERMI_TWOD_A : Nat := 0x902D

/-- Modelled from the spec: `EngineID::MAXWELL_B` from video_core/gpu.h
(not under src/) — the hardware class id of the 3D graphics engine. -/
def MAXWELL_B : Nat := 0xB197

/-- Modelled from the spec: `EngineID::MAXWELL_COMPUTE_B` from
video_core/gpu.h (not under src/) — the hardware class id of the compute
engine. -/
def MAXWELL_COMPUTE_B : Nat := 0xB1C0

/-- The mutable state of `GPU` touched by the command processor:
`current_macro_entry`, `current_macro_code` (Macro Upload State) and
`bound_engines` (Engine Binding Table, an association list standing in for
the source's `unordered_map<u32, EngineID>`; keys are subchannel ids,
values the raw engine id recorded by `BindObject`). -/
structure GPUState where
  current_macro_entry : Nat
  current_macro_code : List Nat
  bound_engines : List (Nat × Nat)
  deriving Repr, DecidableEq

/-- Modelled from the spec: the `GPU` constructor in video_core/gpu.h is not
under src/; the spec says the Macro Upload State is created empty/invalid
and the binding table empty. -/
def initState : GPUState :=
  { current_macro_entry := InvalidGraphMacroEntry
  , current_macro_code := []
  , bound_engines := [] }

/-- One outgoing call to an execution engine, as issued by `WriteReg`:
`maxwell_3d->SubmitMacroCode`, `fermi_2d->WriteReg`,
`maxwell_3d->WriteReg`, `maxwell_compute->WriteReg`. -/
inductive EngineCall where
  | submitMacroCode (entry : Nat) (code : List Nat)
  | fermiWrite (method value : Nat)
  | maxwellWrite (method value remaining : Nat)
  | computeWrite (method value : Nat)
  deriving Repr, DecidableEq

/-- Fatal conditions of the command processor. The source raises them with
`ASSERT`/`UNIMPLEMENTED` (common/assert.h is not under src/; per the design
document's error taxonomy these are fatal protocol violations that abort
processing of the current stream, which the embedding renders as
`Except.error`). -/
inductive GPUError where
  | bindConflict (subchannel : Nat)
  | unboundSubchannel (subchannel : Nat)
  | unknownEngine (engine : Nat)
  | increaseOnceZeroArgs
  | unknownSubmissionMode (mode : Nat)
  deriving Repr, DecidableEq

/-- `GPU::WriteReg(method, subchannel, value, remaining_params)`
(command_processor.cpp lines 33-90). Returns the updated state and the
list of engine calls made during this dispatch, or a fatal error. -/
def writeReg (method subchannel value remaining_params : Nat) (s : GPUState) :
    Except GPUError (GPUState × List EngineCall) :=
  if method = SetGraphMacroEntry then
    -- Prepare to upload a new macro, reset the upload counter.
    .ok ({ s with current_macro_entry := value, current_macro_code := [] }, [])
  else if method = SetGraphMacroCodeArg then
    -- Append a new code word to the current macro.
    let code := s.current_macro_code ++ [value]
    -- There are no more params remaining, submit the code to the 3D engine.
    if remaining_params = 0 then
      .ok ({ s with current_macro_entry := InvalidGraphMacroEntry
                  , current_macro_code := [] },
           [.submitMacroCode s.current_macro_entry code])
    else
      .ok ({ s with current_macro_code := code }, [])
  else if method = BindObject then
    -- Bind the current subchannel to the desired engine id.
    if (s.bound_engines.lookup subchannel).isSome then
      .error (.bindConflict subchannel)
    else
      .ok ({ s with bound_engines := (subchannel, value) :: s.bound_engines }, [])
  else if method < CountBufferMethods then
    -- Special buffer methods other than Bind are not implemented.
    .ok (s, [])
  else
    match s.bound_engines.lookup subchannel with
    | none => .error (.unboundSubchannel subchannel)
    | some engine =>
      if engine = FERMI_TWOD_A then
        .ok (s, [.fermiWrite method value])
      else if engine = MAXWELL_B then
        .ok (s, [.maxwellWrite method value remaining_params])
      else if engine = MAXWELL_COMPUTE_B then
        .ok (s, [.computeWrite method value])
      else
        .error (.unknownEngine engine)

/-- One decoded dispatch tuple, as handed to `WriteReg` by the command
list processor. -/
structure WriteCmd where
  method : Nat
  subchannel : Nat
  value : Nat
  remaining : Nat
  deriving Repr, DecidableEq

/-- Sequentially dispatch a list of decoded tuples through `writeReg`,
threading the state and concatenating the engine-call traces; the first
fatal error aborts. -/
def runWrites : List WriteCmd → GPUState → Except GPUError (GPUState × List EngineCall)
  | [], s => .ok (s, [])
  | c :: cs, s =>
    match writeReg c.method c.subchannel c.value c.remaining s with
    | .error e => .error e
    | .ok (s1, out) =>
      match runWrites cs s1 with
      | .error e => .error e
      | .ok (s2, out2) => .ok (s2, out ++ out2)

/-- The decoded view of one 32-bit command word (`union CommandHeader`,
declared in video_core/command_processor.h). `mode` holds the raw 3-bit
`SubmissionMode` value: 0 = IncreasingOld, 1 = Increasing,
2 = NonIncreasingOld, 3 = NonIncreasing, 4 = IncreaseOnce, 5 = Inline. -/
structure CommandHeader where
  method : Nat
  subchannel : Nat
  arg_count : Nat
  mode : Nat
  inline_data : Nat
  deriving Repr, DecidableEq

/-- Modelled from the spec: the bit layout of `union CommandHeader` lives in
video_core/command_processor.h, which is not under src/. The spec fixes the
3-bit mode enumeration and mutually exclusive fixed bit ranges; the layout
used here is method in bits 0-12, subchannel in bits 13-15, arg_count and
the inline immediate sharing bits 16-28 (the source comment at
command_processor.cpp line 139 places the Inline immediate in bits 16-28),
and mode in the top three bits 29-31. -/
def decodeHeader (w : Nat) : CommandHeader :=
  { method := w % 2 ^ 13
  , subchannel := w / 2 ^ 13 % 2 ^ 3
  , arg_count := w / 2 ^ 16 % 2 ^ 13
  , mode := w / 2 ^ 29 % 2 ^ 3
  , inline_data := w / 2 ^ 16 % 2 ^ 13 }

/-- One argument-consuming loop of `GPU::ProcessCommandList`: for `i` in
`[i0, n)`, read the 32-bit word at the cursor, dispatch it through
`writeReg` with method `methodOf i` and `remaining_params = n - i - 1`, and
advance the cursor by 4 bytes. Returns the final cursor, the final state
and the engine-call trace. `methodOf` is `header.method + i` for the
Increasing modes, constant `header.method` for the NonIncreasing modes and
constant `header.method + 1` for the tail of IncreaseOnce. -/
def argLoop (mem : Nat → Nat) (methodOf : Nat → Nat) (subchannel n i addr : Nat)
    (s : GPUState) : Except GPUError (Nat × GPUState × List EngineCall) :=
  if _h : i < n then
    match writeReg (methodOf i) subchannel (mem addr) (n - i - 1) s with
    | .error e => .error e
    | .ok (s1, out) =>
      match argLoop mem methodOf subchannel n (i + 1) (addr + 4) s1 with
      | .error e => .error e
      | .ok (addr2, s2, out2) => .ok (addr2, s2, out ++ out2)
  else
    .ok (addr, s, [])
termination_by n - i

/-- The per-header `switch (header.mode.Value())` of
`GPU::ProcessCommandList` (command_processor.cpp lines 101-145). `addr` is
the cursor just past the header word; the returned `Nat` is the cursor
after the header's argument words. -/
def processHeader (mem : Nat → Nat) (h : CommandHeader) (addr : Nat) (s : GPUState) :
    Except GPUError (Nat × GPUState × List EngineCall) :=
  match h.mode with
  | 0 | 1 =>
    -- Increase the method value with each argument.
    argLoop mem (fun i => h.method + i) h.subchannel h.arg_count 0 addr s
  | 2 | 3 =>
    -- Use the same method value for all arguments.
    argLoop mem (fun _ => h.method) h.subchannel h.arg_count 0 addr s
  | 4 =>
    if 1 ≤ h.arg_count then
      -- Use the original method for the first argument and then the next
      -- method for all other arguments.
      match writeReg h.method h.subchannel (mem addr) (h.arg_count - 1) s with
      | .error e => .error e
      | .ok (s1, out) =>
        match argLoop mem (fun _ => h.method + 1) h.subchannel h.arg_count 1 (addr + 4) s1 with
        | .error e => .error e
        | .ok (addr2, s2, out2) => .ok (addr2, s2, out ++ out2)
    else
      .error .increaseOnceZeroArgs
  | 5 =>
    -- The register value is stored in the bits 16-28 as an immediate.
    match writeReg h.method h.subchannel h.inline_data 0 s with
    | .error e => .error e
    | .ok (s1, out) => .ok (addr, s1, out)
  | m => .error (.unknownSubmissionMode m)

/-- Attach a final cursor value to a `runWrites` outcome, matching the
shape of `argLoop`'s result. -/
def withAddr (addr : Nat) :
    Except GPUError (GPUState × List EngineCall) →
      Except GPUError (Nat × GPUState × List EngineCall)
  | .error e => .error e
  | .ok (s, out) => .ok (addr, s, out)

theorem withAddr_ok (a : Nat) (r : Except GPUError (GPUState × List EngineCall))
    (a2 : Nat) (s2 : GPUState) (o2 : List EngineCall)
    (hr : withAddr a r = .ok (a2, s2, o2)) : a2 = a := by
  cases r with
  | error e => cases hr
  | ok p => obtain ⟨s, out⟩ := p; cases hr; rfl

/-- Peeling one command off the explicit description of an argument run. -/
theorem rangeCmds_cons (mem methodOf : Nat → Nat) (sub n i addr : Nat)
    (hin : i < n) :
    ((List.range (n - i)).map fun j =>
        (⟨methodOf (i + j), sub, mem (addr + 4 * j), n - (i + j) - 1⟩ : WriteCmd)) =
      ⟨methodOf i, sub, mem addr, n - i - 1⟩ ::
        ((List.range (n - (i + 1))).map fun j =>
          ⟨methodOf (i + 1 + j), sub, mem (addr + 4 + 4 * j), n - (i + 1 + j) - 1⟩) := by
  have hni : n - i = n - (i + 1) + 1 := by omega
  rw [hni, List.range_succ_eq_map, List.map_cons, List.map_map]
  congr 1
  congr 1
  funext j
  simp only [Function.comp_apply, Nat.succ_eq_add_one]
  have e1 : i + (j + 1) = i + 1 + j := by omega
  have e2 : addr + 4 * (j + 1) = addr + 4 + 4 * j := by omega
  rw [e1, e2]

/-- The argument loop dispatches exactly the described command sequence and
leaves the cursor `4` bytes past each consumed word. -/
theorem argLoop_eq_aux (mem methodOf : Nat → Nat) (sub n : Nat) :
    ∀ k i addr s, n - i ≤ k →
      argLoop mem methodOf sub n i addr s =
        withAddr (addr + 4 * (n - i))
          (runWrites ((List.range (n - i)).map fun j =>
            ⟨methodOf (i + j), sub, mem (addr + 4 * j), n - (i + j) - 1⟩) s) := by
  intro k
  induction k with
  | zero =>
    intro i addr s hk
    rw [argLoop, dif_neg (by omega)]
    have h0 : n - i = 0 := by omega
    simp [h0, runWrites, withAddr]
  | succ k ih =>
    intro i addr s hk
    by_cases hin : i < n
    · rw [argLoop, dif_pos hin, rangeCmds_cons mem methodOf sub n i addr hin]
      cases hw : writeReg (methodOf i) sub (mem addr) (n - i - 1) s with
      | error e => simp [runWrites, hw, withAddr]
      | ok p =>
        obtain ⟨s1, out⟩ := p
        simp only [runWrites, hw]
        rw [ih (i + 1) (addr + 4) s1 (by omega)]
        cases hr : runWrites ((List.range (n - (i + 1))).map fun j =>
            (⟨methodOf (i + 1 + j), sub, mem (addr + 4 + 4 * j),
              n - (i + 1 + j) - 1⟩ : WriteCmd)) s1 with
        | error e => simp [withAddr]
        | ok q =>
          obtain ⟨s2, out2⟩ := q
          simp only [withAddr]
          have : addr + 4 + 4 * (n - (i + 1)) = addr + 4 * (n - i) := by omega
          rw [this]
    · rw [argLoop, dif_neg hin]
      have h0 : n - i = 0 := by omega
      simp [h0, runWrites, withAddr]

/-- The argument loop dispatches exactly the described command sequence. -/
theorem argLoop_eq (mem methodOf : Nat → Nat) (sub n i addr : Nat) (s : GPUState) :
    argLoop mem methodOf sub n i addr s =
      withAddr (addr + 4 * (n - i))
        (runWrites ((List.range (n - i)).map fun j =>
          ⟨methodOf (i + j), sub, mem (addr + 4 * j), n - (i + j) - 1⟩) s) :=
  argLoop_eq_aux mem methodOf sub n (n - i) i addr s (Nat.le_refl _)

/-- Per-mode characterisation: Increasing / IncreasingOld. -/
theorem processHeader_inc (mem : Nat → Nat) (h : CommandHeader) (addr : Nat)
    (s : GPUState) (hm : h.mode = 0 ∨ h.mode = 1) :
    processHeader mem h addr s =
      withAddr (addr + 4 * h.arg_count)
        (runWrites ((List.range h.arg_count).map fun j =>
          ⟨h.method + j, h.subchannel, mem (addr + 4 * j),
            h.arg_count - j - 1⟩) s) := by
  rcases hm with hm | hm <;>
    simp only [processHeader, hm] <;>
    rw [argLoop_eq] <;>
    simp

/-- Per-mode characterisation: NonIncreasing / NonIncreasingOld. -/
theorem processHeader_noninc (mem : Nat → Nat) (h : CommandHeader) (addr : Nat)
    (s : GPUState) (hm : h.mode = 2 ∨ h.mode = 3) :
    processHeader mem h addr s =
      withAddr (addr + 4 * h.arg_count)
        (runWrites ((List.range h.arg_count).map fun j =>
          ⟨h.method, h.subchannel, mem (addr + 4 * j),
            h.arg_count - j - 1⟩) s) := by
  rcases hm with hm | hm <;>
    simp only [processHeader, hm] <;>
    rw [argLoop_eq] <;>
    simp

/-- Per-mode characterisation: IncreaseOnce with at least one argument. -/
theorem processHeader_once (mem : Nat → Nat) (h : CommandHeader) (addr : Nat)
    (s : GPUState) (hm : h.mode = 4) (hn : 1 ≤ h.arg_count) :
    processHeader mem h addr s =
      withAddr (addr + 4 * h.arg_count)
        (runWrites (⟨h.method, h.subchannel, mem addr, h.arg_count - 1⟩ ::
          (List.range (h.arg_count - 1)).map (fun j =>
            ⟨h.method + 1, h.subchannel, mem (addr + 4 + 4 * j),
              h.arg_count - (1 + j) - 1⟩)) s) := by
  simp only [processHeader, hm, if_pos hn]
  cases hw : writeReg h.method h.subchannel (mem addr) (h.arg_count - 1) s with
  | error e => simp [runWrites, hw, withAddr]
  | ok p =>
    obtain ⟨s1, out⟩ := p
    simp only [runWrites, hw]
    rw [argLoop_eq]
    cases hr : runWrites ((List.range (h.arg_count - 1)).map fun j =>
        (⟨h.method + 1, h.subchannel, mem (addr + 4 + 4 * j),
          h.arg_count - (1 + j) - 1⟩ : WriteCmd)) s1 with
    | error e => simp [hr, withAddr]
    | ok q =>
      obtain ⟨s2, out2⟩ := q
      simp only [hr, withAddr]
      have : addr + 4 + 4 * (h.arg_count - 1) = addr + 4 * h.arg_count := by omega
      rw [this]

/-- Per-mode characterisation: IncreaseOnce with zero arguments is fatal. -/
theorem processHeader_once_zero (mem : Nat → Nat) (h : CommandHeader)
    (addr : Nat) (s : GPUState) (hm : h.mode = 4) (hn : h.arg_count = 0) :
    processHeader mem h addr s = .error .increaseOnceZeroArgs := by
  simp [processHeader, hm, hn]

/-- Per-mode characterisation: Inline consumes no argument words. -/
theorem processHeader_inline (mem : Nat → Nat) (h : CommandHeader) (addr : Nat)
    (s : GPUState) (hm : h.mode = 5) :
    processHeader mem h addr s =
      withAddr addr
        (runWrites [⟨h.method, h.subchannel, h.inline_data, 0⟩] s) := by
  simp only [processHeader, hm]
  cases hw : writeReg h.method h.subchannel h.inline_data 0 s with
  | error e => simp [runWrites, hw, withAddr]
  | ok p =>
    obtain ⟨s1, out⟩ := p
    simp [runWrites, hw, withAddr]

/-- Per-mode characterisation: an unknown submission mode is fatal. -/
theorem processHeader_unknown (mem : Nat → Nat) (h : CommandHeader)
    (addr : Nat) (s : GPUState) (hm : 6 ≤ h.mode) :
    processHeader mem h addr s = .error (.unknownSubmissionMode h.mode) := by
  obtain ⟨m, hm6⟩ : ∃ m, h.mode = m + 6 := ⟨h.mode - 6, by omega⟩
  simp [processHeader, hm6]

/-- `processHeader` only moves the cursor forward. -/
theorem processHeader_addr_le (mem : Nat → Nat) (h : CommandHeader)
    (addr : Nat) (s : GPUState) (addr2 : Nat) (s2 : GPUState)
    (out2 : List EngineCall)
    (hrun : processHeader mem h addr s = .ok (addr2, s2, out2)) :
    addr ≤ addr2 := by
  by_cases h01 : h.mode = 0 ∨ h.mode = 1
  · rw [processHeader_inc mem h addr s h01] at hrun
    have := withAddr_ok _ _ _ _ _ hrun
    omega
  · by_cases h23 : h.mode = 2 ∨ h.mode = 3
    · rw [processHeader_noninc mem h addr s h23] at hrun
      have := withAddr_ok _ _ _ _ _ hrun
      omega
    · by_cases h4 : h.mode = 4
      · by_cases hn : 1 ≤ h.arg_count
        · rw [processHeader_once mem h addr s h4 hn] at hrun
          have := withAddr_ok _ _ _ _ _ hrun
          omega
        · rw [processHeader_once_zero mem h addr s h4 (by omega)] at hrun
          cases hrun
      · by_cases h5 : h.mode = 5
        · rw [processHeader_inline mem h addr s h5] at hrun
          have := withAddr_ok _ _ _ _ _ hrun
          omega
        · rw [processHeader_unknown mem h addr s (by omega)] at hrun
          cases hrun

/-- The main loop of `GPU::ProcessCommandList`: while the cursor is below
`endAddr`, read and decode one header word, advance the cursor by 4, and
expand the header. The remaining-byte budget is consulted only here, before
each header read — never between argument words. -/
def processLoop (mem : Nat → Nat) (endAddr addr : Nat) (s : GPUState) :
    Except GPUError (GPUState × List EngineCall) :=
  if _h : addr < endAddr then
    match hh : processHeader mem (decodeHeader (mem addr)) (addr + 4) s with
    | .error e => .error e
    | .ok (addr2, s1, out) =>
      match processLoop mem endAddr addr2 s1 with
      | .error e => .error e
      | .ok (s2, out2) => .ok (s2, out ++ out2)
  else
    .ok (s, [])
termination_by endAddr - addr
decreasing_by
  have := processHeader_addr_le mem (decodeHeader (mem addr)) (addr + 4) s addr2 s1 out hh
  omega

/-- `GPU::ProcessCommandList(address, size)` (command_processor.cpp lines
92-147): translate the GPU virtual address once through the memory port,
then run the decode loop over `size` 32-bit words starting at the
translated base. The GPU state persists across invocations, so it is
threaded explicitly. -/
def ProcessCommandList (translate mem : Nat → Nat) (address size : Nat)
    (s : GPUState) : Except GPUError (GPUState × List EngineCall) :=
  processLoop mem (translate address + size * 4) (translate address) s

/-- C1: Macro upload round-trip — dispatching `SetGraphMacroEntry` with
value `e` and then `SetGraphMacroCodeArg` calls carrying words
`[w0, w1, w2]` with `remaining_params` sequence `[2, 1, 0]` results in
exactly one macro submission to the 3D engine with entry id `e` and code
sequence `[w0, w1, w2]`, after which the Macro Upload State (current entry
and accumulated code) is back to its empty/invalid state. -/
theorem claim_C1_macro_roundtrip (s : GPUState) (sub r e w0 w1 w2 : Nat) :
    runWrites [⟨SetGraphMacroEntry, sub, e, r⟩,
               ⟨SetGraphMacroCodeArg, sub, w0, 2⟩,
               ⟨SetGraphMacroCodeArg, sub, w1, 1⟩,
               ⟨SetGraphMacroCodeArg, sub, w2, 0⟩] s =
      .ok ({ s with current_macro_entry := InvalidGraphMacroEntry
                  , current_macro_code := [] },
           [.submitMacroCode e [w0, w1, w2]]) := by
  simp [runWrites, writeReg, SetGraphMacroEntry, SetGraphMacroCodeArg]

/-- C2: for every header with mode Increasing (1) or IncreasingOld (0) and
`arg_count = n`, the command list processor makes exactly `n` dispatcher
calls, the `i`-th (for `i` in `[0, n)`) using method `header.method + i`
and `remaining_params = n - i - 1`, in that order, reading one argument
word from the stream per call; the cursor ends `4 * n` bytes further. -/
theorem claim_C2_increasing (mem : Nat → Nat) (h : CommandHeader)
    (addr : Nat) (s : GPUState) (hm : h.mode = 0 ∨ h.mode = 1) :
    processHeader mem h addr s =
      withAddr (addr + 4 * h.arg_count)
        (runWrites ((List.range h.arg_count).map fun i =>
          ⟨h.method + i, h.subchannel, mem (addr + 4 * i),
            h.arg_count - i - 1⟩) s) :=
  processHeader_inc mem h addr s hm

/-- Witness for C2 at a concrete header (method 0x200, subchannel 3,
arg_count 2, mode Increasing). -/
theorem claim_C2_increasing_witness :
    (CommandHeader.mode ⟨0x200, 3, 2, 1, 0⟩ = 0 ∨
      CommandHeader.mode ⟨0x200, 3, 2, 1, 0⟩ = 1) ∧
    processHeader (fun a => a) ⟨0x200, 3, 2, 1, 0⟩ 100 initState =
      withAddr (100 + 4 * 2)
        (runWrites ((List.range 2).map fun i =>
          ⟨0x200 + i, 3, 100 + 4 * i, 2 - i - 1⟩) initState) :=
  ⟨Or.inr rfl,
   claim_C2_increasing (fun a => a) ⟨0x200, 3, 2, 1, 0⟩ 100 initState (Or.inr rfl)⟩

/-- C3: for every header with mode IncreaseOnce (4) and `arg_count = n ≥ 1`,
the first dispatcher call uses `header.method` and every subsequent call
(index `1 + j` for `j` in `[0, n - 1)`) uses `header.method + 1`, each call
`i` receiving `remaining_params = n - i - 1`; a header with mode
IncreaseOnce and `arg_count = 0` fails with a contract-violation error
rather than silently doing nothing. -/
theorem claim_C3_increase_once (mem : Nat → Nat) (h : CommandHeader)
    (addr : Nat) (s : GPUState) (hm : h.mode = 4) :
    (1 ≤ h.arg_count →
      processHeader mem h addr s =
        withAddr (addr + 4 * h.arg_count)
          (runWrites (⟨h.method, h.subchannel, mem addr, h.arg_count - 1⟩ ::
            (List.range (h.arg_count - 1)).map (fun j =>
              ⟨h.method + 1, h.subchannel, mem (addr + 4 + 4 * j),
                h.arg_count - (1 + j) - 1⟩)) s)) ∧
    (h.arg_count = 0 →
      processHeader mem h addr s = .error .increaseOnceZeroArgs) :=
  ⟨fun hn => processHeader_once mem h addr s hm hn,
   fun hz => processHeader_once_zero mem h addr s hm hz⟩

/-- Witness for C3 at a concrete header (method 0x300, subchannel 1,
arg_count 3, mode IncreaseOnce). -/
theorem claim_C3_increase_once_witness :
    CommandHeader.mode ⟨0x300, 1, 3, 4, 0⟩ = 4 ∧
    ((1 ≤ CommandHeader.arg_count ⟨0x300, 1, 3, 4, 0⟩ →
      processHeader (fun a => a) ⟨0x300, 1, 3, 4, 0⟩ 40 initState =
        withAddr (40 + 4 * 3)
          (runWrites (⟨0x300, 1, 40, 3 - 1⟩ ::
            (List.range (3 - 1)).map (fun j =>
              ⟨0x300 + 1, 1, 40 + 4 + 4 * j, 3 - (1 + j) - 1⟩)) initState)) ∧
    (CommandHeader.arg_count ⟨0x300, 1, 3, 4, 0⟩ = 0 →
      processHeader (fun a => a) ⟨0x300, 1, 3, 4, 0⟩ 40 initState =
        .error .increaseOnceZeroArgs)) :=
  ⟨rfl, claim_C3_increase_once (fun a => a) ⟨0x300, 1, 3, 4, 0⟩ 40 initState rfl⟩

/-- C4: two `BindObject` dispatches on the same subchannel without an
intervening reset fail with a bind-conflict error (the existing binding is
not silently overwritten), while `BindObject` on subchannel `subA` followed
by `BindObject` on a different subchannel `subB` both succeed, each
recording `bound_engines[subchannel] = EngineID(value)`. -/
theorem claim_C4_bind_conflict (s : GPUState) (subA subB vA vB rA rB rB2 : Nat)
    (hA : s.bound_engines.lookup subA = none)
    (hAB : subA ≠ subB) :
    writeReg BindObject subA vA rA s =
        .ok ({ s with bound_engines := (subA, vA) :: s.bound_engines }, []) ∧
    writeReg BindObject subA vB rB
        { s with bound_engines := (subA, vA) :: s.bound_engines } =
      .error (.bindConflict subA) ∧
    (s.bound_engines.lookup subB = none →
      writeReg BindObject subB vB rB2
          { s with bound_engines := (subA, vA) :: s.bound_engines } =
        .ok ({ s with bound_engines :=
                (subB, vB) :: (subA, vA) :: s.bound_engines }, []) ∧
      List.lookup subA ((subB, vB) :: (subA, vA) :: s.bound_engines) = some vA ∧
      List.lookup subB ((subB, vB) :: (subA, vA) :: s.bound_engines) = some vB) := by
  refine ⟨?_, ?_, fun hB => ⟨?_, ?_, ?_⟩⟩
  · simp [writeReg, BindObject, SetGraphMacroEntry, SetGraphMacroCodeArg,
      CountBufferMethods, hA]
  · simp [writeReg, BindObject, SetGraphMacroEntry, SetGraphMacroCodeArg,
      CountBufferMethods, List.lookup]
  · have hba : (subB == subA) = false := beq_eq_false_iff_ne.mpr (Ne.symm hAB)
    simp [writeReg, BindObject, SetGraphMacroEntry, SetGraphMacroCodeArg,
      CountBufferMethods, List.lookup, hB, hba]
  · have hab : (subA == subB) = false := beq_eq_false_iff_ne.mpr hAB
    simp [List.lookup, hab]
  · simp [List.lookup]

/-- Witness for C4 at concrete subchannels 0 and 1 starting from the empty
binding table. -/
theorem claim_C4_bind_conflict_witness :
    List.lookup 0 (GPUState.bound_engines initState) = none ∧ (0 : Nat) ≠ 1 ∧
    (writeReg BindObject 0 0x902D 7 initState =
        .ok ({ initState with bound_engines := (0, 0x902D) :: [] }, []) ∧
     writeReg BindObject 0 0xB197 8
        { initState with bound_engines := (0, 0x902D) :: [] } =
       .error (.bindConflict 0) ∧
     (List.lookup 1 (GPUState.bound_engines initState) = none →
       writeReg BindObject 1 0xB197 9
           { initState with bound_engines := (0, 0x902D) :: [] } =
         .ok ({ initState with bound_engines :=
                 (1, 0xB197) :: (0, 0x902D) :: [] }, []) ∧
       List.lookup 0 ((1, 0xB197) :: (0, 0x902D) :: []) = some 0x902D ∧
       List.lookup 1 ((1, 0xB197) :: (0, 0x902D) :: []) = some 0xB197)) :=
  ⟨rfl, by decide,
   claim_C4_bind_conflict initState 0 1 0x902D 0xB197 7 8 9 rfl (by decide)⟩

/-- C5: a dispatch with `method ≥ 0x100` on a subchannel that has no prior
`BindObject` binding fails with the unbound-subchannel error; the write is
never silently dropped and no engine is called (the fatal result carries no
state change and no engine-call trace). -/
theorem claim_C5_unbound_forward (s : GPUState) (m sub v r : Nat)
    (hm : 0x100 ≤ m) (hsub : s.bound_engines.lookup sub = none) :
    writeReg m sub v r s = .error (.unboundSubchannel sub) := by
  simp only [writeReg, SetGraphMacroEntry, SetGraphMacroCodeArg, BindObject,
    CountBufferMethods]
  rw [if_neg (by omega), if_neg (by omega), if_neg (by omega),
    if_neg (by omega), hsub]

/-- Witness for C5: method 0x100 on unbound subchannel 5. -/
theorem claim_C5_unbound_forward_witness :
    (0x100 : Nat) ≤ 0x100 ∧
    List.lookup 5 (GPUState.bound_engines initState) = none ∧
    writeReg 0x100 5 77 0 initState = .error (.unboundSubchannel 5) :=
  ⟨by decide, rfl, claim_C5_unbound_forward initState 0x100 5 77 0 (by decide) rfl⟩

/-- C6: for every header with mode Inline (5), exactly one dispatcher call
occurs, with value equal to the header's embedded immediate (`inline_data`)
and `remaining_params = 0`, and no trailing argument words are consumed
from the stream: the returned cursor equals the input cursor, so the header
costs exactly the 4 bytes of the header word itself (which the enclosing
loop consumed before calling `processHeader`). -/
theorem claim_C6_inline (mem : Nat → Nat) (h : CommandHeader) (addr : Nat)
    (s : GPUState) (hm : h.mode = 5) :
    processHeader mem h addr s =
      withAddr addr
        (runWrites [⟨h.method, h.subchannel, h.inline_data, 0⟩] s) :=
  processHeader_inline mem h addr s hm

/-- Witness for C6 at a concrete Inline header. -/
theorem claim_C6_inline_witness :
    CommandHeader.mode ⟨0x45, 2, 3, 5, 0x123⟩ = 5 ∧
    processHeader (fun a => a) ⟨0x45, 2, 3, 5, 0x123⟩ 200 initState =
      withAddr 200 (runWrites [⟨0x45, 2, 0x123, 0⟩] initState) :=
  ⟨rfl, claim_C6_inline (fun a => a) ⟨0x45, 2, 3, 5, 0x123⟩ 200 initState rfl⟩

/-- C7: for every header with mode NonIncreasing (3) or NonIncreasingOld
(2) and `arg_count = n`, all `n` dispatcher calls use `header.method`
unchanged, each call `i` (for `i` in `[0, n)`) receiving the `i`-th
argument word and `remaining_params = n - i - 1`. -/
theorem claim_C7_non_increasing (mem : Nat → Nat) (h : CommandHeader)
    (addr : Nat) (s : GPUState) (hm : h.mode = 2 ∨ h.mode = 3) :
    processHeader mem h addr s =
      withAddr (addr + 4 * h.arg_count)
        (runWrites ((List.range h.arg_count).map fun i =>
          ⟨h.method, h.subchannel, mem (addr + 4 * i),
            h.arg_count - i - 1⟩) s) :=
  processHeader_noninc mem h addr s hm

/-- Witness for C7 at a concrete header (mode NonIncreasing). -/
theorem claim_C7_non_increasing_witness :
    (CommandHeader.mode ⟨0x400, 4, 3, 3, 0⟩ = 2 ∨
      CommandHeader.mode ⟨0x400, 4, 3, 3, 0⟩ = 3) ∧
    processHeader (fun a => a) ⟨0x400, 4, 3, 3, 0⟩ 60 initState =
      withAddr (60 + 4 * 3)
        (runWrites ((List.range 3).map fun i =>
          ⟨0x400, 4, 60 + 4 * i, 3 - i - 1⟩) initState) :=
  ⟨Or.inr rfl,
   claim_C7_non_increasing (fun a => a) ⟨0x400, 4, 3, 3, 0⟩ 60 initState (Or.inr rfl)⟩

/-- C8: a dispatch with a method in the reserved control range `[0, 0x100)`
other than `BindObject` (0x00), `SetGraphMacroCodeArg` (0x46) and
`SetGraphMacroEntry` (0x47) — e.g. `SetGraphMacroCode` (0x45) — is a no-op
apart from a diagnostic: the state is unchanged, no engine call occurs, and
the result is success, so processing of the command stream continues. -/
theorem claim_C8_reserved_noop (s : GPUState) (m sub v r : Nat)
    (hlt : m < 0x100) (h0 : m ≠ BindObject)
    (h46 : m ≠ SetGraphMacroCodeArg) (h47 : m ≠ SetGraphMacroEntry) :
    writeReg m sub v r s = .ok (s, []) := by
  simp only [writeReg, SetGraphMacroEntry, SetGraphMacroCodeArg, BindObject,
    CountBufferMethods] at h0 h46 h47 ⊢
  rw [if_neg h47, if_neg h46, if_neg h0, if_pos hlt]

/-- Witness for C8 at the concrete reserved method `SetGraphMacroCode`
(0x45). -/
theorem claim_C8_reserved_noop_witness :
    (0x45 : Nat) < 0x100 ∧ (0x45 : Nat) ≠ BindObject ∧
    (0x45 : Nat) ≠ SetGraphMacroCodeArg ∧ (0x45 : Nat) ≠ SetGraphMacroEntry ∧
    writeReg 0x45 3 99 2 initState = .ok (initState, []) :=
  ⟨by decide, by decide, by decide, by decide,
   claim_C8_reserved_noop initState 0x45 3 99 2 (by decide) (by decide)
     (by decide) (by decide)⟩

/-- C9: in `process(base_address, word_count)` the remaining-word budget is
checked only before reading each header, never between argument words.
Instantiated at a region declared to hold exactly one word whose header
has mode Increasing: every one of its `arg_count` argument words — all of
which lie at or past the declared region end `head + 1 * 4` — is still
read and dispatched, and the cursor after the header's expansion
(`processHeader`'s returned address) lies strictly beyond the declared
region end whenever `arg_count ≥ 1`; the loop then exits at the next
header boundary, returning exactly this one header's dispatches. -/
theorem claim_C9_overrun (translate mem : Nat → Nat) (address head : Nat)
    (h : CommandHeader) (s : GPUState)
    (hhead : translate address = head)
    (hdec : decodeHeader (mem head) = h)
    (hm : h.mode = 1) :
    ProcessCommandList translate mem address 1 s =
      runWrites ((List.range h.arg_count).map fun i =>
        ⟨h.method + i, h.subchannel, mem (head + 4 + 4 * i),
          h.arg_count - i - 1⟩) s ∧
    (∀ a2 s2 out2,
      processHeader mem h (head + 4) s = .ok (a2, s2, out2) →
      1 ≤ h.arg_count → head + 1 * 4 < a2) := by
  constructor
  · rw [ProcessCommandList, hhead, processLoop, dif_pos (by omega), hdec,
      processHeader_inc mem h (head + 4) s (Or.inr hm)]
    cases hr : runWrites ((List.range h.arg_count).map fun i =>
        (⟨h.method + i, h.subchannel, mem (head + 4 + 4 * i),
          h.arg_count - i - 1⟩ : WriteCmd)) s with
    | error e => simp [withAddr]
    | ok p =>
      obtain ⟨s1, out⟩ := p
      simp only [withAddr]
      rw [processLoop, dif_neg (by omega)]
      simp
  · intro a2 s2 out2 hrun hn
    rw [processHeader_inc mem h (head + 4) s (Or.inr hm)] at hrun
    have := withAddr_ok _ _ _ _ _ hrun
    omega

/-- Witness for C9: a one-word region whose header declares two trailing
argument words (method 5, subchannel 2, arg_count 2, mode Increasing). -/
theorem claim_C9_overrun_witness :
    (fun _ : Nat => 0) 0 = 0 ∧
    decodeHeader ((fun _ : Nat => 2 ^ 29 + 2 * 2 ^ 16 + 2 * 2 ^ 13 + 5) 0) =
      (⟨5, 2, 2, 1, 2⟩ : CommandHeader) ∧
    CommandHeader.mode ⟨5, 2, 2, 1, 2⟩ = 1 ∧
    (ProcessCommandList (fun _ => 0) (fun _ => 2 ^ 29 + 2 * 2 ^ 16 + 2 * 2 ^ 13 + 5)
        0 1 initState =
      runWrites ((List.range 2).map fun i =>
        ⟨5 + i, 2, 2 ^ 29 + 2 * 2 ^ 16 + 2 * 2 ^ 13 + 5, 2 - i - 1⟩) initState ∧
    (∀ a2 s2 out2,
      processHeader (fun _ => 2 ^ 29 + 2 * 2 ^ 16 + 2 * 2 ^ 13 + 5)
          (⟨5, 2, 2, 1, 2⟩ : CommandHeader) (0 + 4) initState = .ok (a2, s2, out2) →
      1 ≤ CommandHeader.arg_count ⟨5, 2, 2, 1, 2⟩ → 0 + 1 * 4 < a2)) :=
  ⟨rfl, by decide, rfl,
   claim_C9_overrun (fun _ => 0) (fun _ => 2 ^ 29 + 2 * 2 ^ 16 + 2 * 2 ^ 13 + 5)
     0 0 ⟨5, 2, 2, 1, 2⟩ initState rfl (by decide) rfl⟩

/-- C10: dispatching `SetGraphMacroCodeArg` with `remaining_params = 0`
when the Macro Upload State is idle (current entry holds the invalid-entry
sentinel and the accumulated code is empty, as after a flush or at start)
does not fail: the accumulated code — just the single value — is submitted
to the 3D engine with the invalid-entry sentinel as the entry id, and the
state is reset to (i.e. remains) empty. -/
theorem claim_C10_idle_flush (be : List (Nat × Nat)) (sub v : Nat) :
    writeReg SetGraphMacroCodeArg sub v 0
        { current_macro_entry := InvalidGraphMacroEntry
        , current_macro_code := []
        , bound_engines := be } =
      .ok ({ current_macro_entry := InvalidGraphMacroEntry
           , current_macro_code := []
           , bound_engines := be },
           [.submitMacroCode InvalidGraphMacroEntry [v]]) := by
  simp [writeReg, SetGraphMacroEntry, SetGraphMacroCodeArg]

end Tegra
